import Mathlib

/-!
Verification of the easy-express-endpoints request pipeline.

The development is a shallow embedding of src/Endpoint.ts,
src/exceptions/HttpException.ts and src/exceptions/BadRequestException.ts.
The per-request execution of a registered route is modelled as a trace of
events (List Event): middleware invocations, header and status writes, the
handler call, body writes, logging, and calls to the express continuation
next(err).  External collaborators (the validation adapter, middleware
bodies, the transport) are modelled by their observable behaviour carried
on the request or on the middleware value.
-/

namespace EasyExpress

/-- A single field error produced by the validation adapter
(express-validator ValidationError, kept abstract as field + message). -/
structure FieldError where
  field : String
  message : String
deriving DecidableEq

/-- HttpException from src/exceptions/HttpException.ts:
class HttpException extends Error with public status, message, info. -/
structure HttpException where
  status : Nat
  message : String
  info : Option (List FieldError)
deriving DecidableEq

/-- BadRequestException from src/exceptions/BadRequestException.ts:
constructor(validationErrors) calls super(400, "Bad request", validationErrors). -/
def BadRequestException (validationErrors : List FieldError) : HttpException :=
  { status := 400, message := "Bad request", info := some validationErrors }

/-- An error value flowing to next(err): either an HttpException or a plain
JavaScript Error carrying a message. -/
inductive Err where
  | http (e : HttpException)
  | plain (message : String)
deriving DecidableEq

/-- EndpointType enum from src/Endpoint.ts. -/
inductive EndpointType where
  | GET | POST | DELETE | PUT
deriving DecidableEq

/-- ResponseType enum from src/Endpoint.ts (string-valued in TypeScript:
file, stream, json).  The extra constructor `other` stands for an
out-of-enum value reaching the default branch of sendResponse; it carries
the string that interpolates into the default branch message. -/
inductive ResponseType where
  | FILE | STREAM | JSON
  | other (s : String)
deriving DecidableEq

/-- The string value of a ResponseType, as interpolated by
the template literal in the default branch of sendResponse. -/
def ResponseType.toStr : ResponseType → String
  | .FILE => "file"
  | .STREAM => "stream"
  | .JSON => "json"
  | .other s => s

/-- RequestData from src/types.ts: the read-only view built once per request
from the transport body, query, route params and headers.  Payloads are kept
abstract as strings. -/
structure RequestData where
  body : String
  query : String
  params : String
  headers : String
deriving DecidableEq

/-- ResponseHeaders from src/Endpoint.ts: result of the headers() hook. -/
structure ResponseHeaders where
  headers : List (String × String)
  status : Nat
deriving DecidableEq

/-- The observable behaviour of an express middleware when invoked:
call next() and continue, call next(err) with an error, or write its own
response and not call onward. -/
inductive MwAction where
  | next
  | nextErr (e : Err)
  | respond
deriving DecidableEq

/-- A middleware value: a name identifying the function plus its
observable behaviour. -/
structure MiddlewareFunc where
  name : String
  action : MwAction
deriving DecidableEq

/-- The result a handler (execute) can return, abstracted to what the
response dispatcher inspects: a string, a readable stream, or some other
value such as a number. -/
inductive HandlerResult where
  | str (s : String)
  | readableStream
  | num (n : Nat)
deriving DecidableEq

/-- isString from src/Endpoint.ts line 8: typeof x === string. -/
def isString : HandlerResult → Bool
  | .str _ => true
  | _ => false

/-- isStream.isReadableStream capability check used by the STREAM branch. -/
def isReadableStream : HandlerResult → Bool
  | .readableStream => true
  | _ => false

/-- An incoming request together with the behaviour of the external
collaborators on it: the field errors the validation adapter records
(validationResult(req).array()), and whether the transport fails while
sending a file or relaying a stream (the error detail when it fails). -/
structure Request where
  body : String
  query : String
  params : String
  headers : String
  validationErrors : List FieldError
  fileSendErr : Option String
  streamRelayErr : Option String
deriving DecidableEq

/-- The kind of terminal body write performed on the response. -/
inductive WriteKind where
  | jsonSend
  | sendFile (file : String)
  | streamPipe
deriving DecidableEq

/-- Observable events of one request execution. -/
inductive Event where
  /-- the registered auth middleware was invoked by runAuthIfNeeded -/
  | authInvoked (name : String)
  /-- a shared middleware from the route chain was invoked -/
  | mwInvoked (name : String)
  /-- a middleware wrote its own response and did not call onward -/
  | respondWrite (name : String)
  /-- the headers() hook was invoked with this RequestData -/
  | headersCalled (d : RequestData)
  /-- res.statusCode was assigned -/
  | statusSet (s : Nat)
  /-- res.setHeader was called -/
  | headerSet (k v : String)
  /-- execute() was invoked with this RequestData -/
  | executeCalled (d : RequestData)
  /-- a terminal body write on the response (res.send, res.sendFile, pipe) -/
  | bodyWrite (w : WriteKind)
  /-- the fileSent hook was invoked with this file -/
  | fileSentHook (f : String)
  /-- console.error was called -/
  | logError (msg : String)
  /-- an exception was thrown inside an asynchronous callback, reaching
  no catch block and no next() -/
  | uncaughtThrow (msg : String)
  /-- next(err) was called, forwarding the error -/
  | nextErr (e : Err)
deriving DecidableEq

/-- The endpoint configuration and overridable hooks: path and type from the
constructor, authRequired and responseType set during construction, the
headers() hook and the execute() handler.  Hooks may throw, modelled by
Except. -/
structure EndpointModel where
  path : String
  type : EndpointType
  authRequired : Bool := true
  responseType : ResponseType := ResponseType.JSON
  headersHook : RequestData → Except Err ResponseHeaders := fun _ => Except.ok { headers := [], status := 200 }
  execute : RequestData → Except Err HandlerResult

/-- The process-wide static registry of src/Endpoint.ts:
Endpoint.middlewares and Endpoint.authMiddleware. -/
structure Registry where
  middlewares : List MiddlewareFunc
  authMiddleware : Option MiddlewareFunc

/-- Endpoint.registerMiddleware: pushes onto the shared middleware list. -/
def registerMiddleware (reg : Registry) (mw : MiddlewareFunc) : Registry :=
  { reg with middlewares := reg.middlewares ++ [mw] }

/-- Endpoint.registerAuthMiddleware: overwrites the auth middleware
(last write wins). -/
def registerAuthMiddleware (reg : Registry) (mw : MiddlewareFunc) : Registry :=
  { reg with authMiddleware := some mw }

/-- A registered route: setupEndpoint binds the endpoint (this) and spreads
the middleware list into the handler sequence at registration time, so the
route carries a snapshot of Endpoint.middlewares.  The auth middleware is
not part of the route: runAuthIfNeeded reads the static field at request
time. -/
structure Route where
  endpoint : EndpointModel
  middlewaresSnapshot : List MiddlewareFunc

/-- setupEndpoint from src/Endpoint.ts lines 49-64: registers
[validators..., runAuthIfNeeded, ...Endpoint.middlewares, process] against
the router.  The spread evaluates Endpoint.middlewares now. -/
def setupEndpoint (ep : EndpointModel) (reg : Registry) : Route :=
  { endpoint := ep, middlewaresSnapshot := reg.middlewares }

/-- Invoking one middleware in the express chain: the event `inv` records
the invocation, the Bool is whether the chain continues (next() with no
error was called). -/
def invokeMw (inv : Event) (mw : MiddlewareFunc) : List Event × Bool :=
  match mw.action with
  | MwAction.next => ([inv], true)
  | MwAction.nextErr e => ([inv, Event.nextErr e], false)
  | MwAction.respond => ([inv, Event.respondWrite mw.name], false)

/-- runAuthIfNeeded from src/Endpoint.ts lines 177-183:
if (this.authRequired and Endpoint.authMiddleware) invoke it, else next(). -/
def runAuthIfNeeded (authRequired : Bool) (authMw : Option MiddlewareFunc) :
    List Event × Bool :=
  match authRequired, authMw with
  | true, some mw => invokeMw (Event.authInvoked mw.name) mw
  | true, none => ([], true)
  | false, _ => ([], true)

/-- Running the shared middleware portion of the route chain, in order,
stopping when one does not call next(). -/
def runMiddlewares : List MiddlewareFunc → List Event × Bool
  | [] => ([], true)
  | mw :: rest =>
    let r := invokeMw (Event.mwInvoked mw.name) mw
    if r.2 then
      let r2 := runMiddlewares rest
      (r.1 ++ r2.1, r2.2)
    else r

/-- getValidationErrors from src/Endpoint.ts lines 172-175:
validationResult(req).array(), the full ordered error list recorded by the
validation chains. -/
def getValidationErrors (req : Request) : List FieldError :=
  req.validationErrors

/-- Building RequestData in process (lines 116-121) from
req.body, req.query, req.params, req.headers. -/
def mkRequestData (req : Request) : RequestData :=
  { body := req.body, query := req.query, params := req.params, headers := req.headers }

/-- setHeaders from src/Endpoint.ts lines 105-108: assign res.statusCode,
then res.setHeader for each entry. -/
def setHeadersEvents (status : Nat) (hs : List (String × String)) : List Event :=
  Event.statusSet status :: hs.map (fun kv => Event.headerSet kv.1 kv.2)

/-- sendResponse from src/Endpoint.ts lines 133-170.  Returns the events of
a successful dispatch, or the error thrown synchronously (caught by the
try/catch in process).  The FILE callback and the STREAM pipeline callback
run after the write; their behaviour comes from the transport outcome on
the request. -/
def sendResponse (rt : ResponseType) (data : HandlerResult) (req : Request) :
    Except Err (List Event) :=
  match rt with
  | ResponseType.JSON =>
    Except.ok [Event.bodyWrite WriteKind.jsonSend]
  | ResponseType.FILE =>
    match data with
    | HandlerResult.str s =>
      Except.ok (Event.bodyWrite (WriteKind.sendFile s) ::
        (match req.fileSendErr with
         | some e => [Event.logError ("Error sending file " ++ e)]
         | none => []) ++
        [Event.fileSentHook s])
    | _ => Except.error (Err.plain "Expected data to be a string")
  | ResponseType.STREAM =>
    if isReadableStream data then
      Except.ok (Event.bodyWrite WriteKind.streamPipe ::
        (match req.streamRelayErr with
         | some e =>
           [Event.logError "Error writing stream in image endpoint",
            Event.logError e,
            Event.uncaughtThrow "Error writing stream in image endpoint"]
         | none => []))
    else
      Except.error (Err.plain "Expected data to be a readable stream")
  | ResponseType.other s =>
    Except.error (Err.plain (s ++ " is not implemented"))

/-- process from src/Endpoint.ts lines 110-131: check validation errors,
build RequestData, run the headers hook, apply status and headers, run
execute, dispatch the response; any exception thrown in the try block is
caught and forwarded once via next(err). -/
def process (ep : EndpointModel) (req : Request) : List Event :=
  let validationErrors := getValidationErrors req
  if validationErrors.length > 0 then
    [Event.nextErr (Err.http (BadRequestException validationErrors))]
  else
    let data := mkRequestData req
    match ep.headersHook data with
    | Except.error e => [Event.headersCalled data, Event.nextErr e]
    | Except.ok rh =>
      match ep.execute data with
      | Except.error e =>
        Event.headersCalled data :: setHeadersEvents rh.status rh.headers ++
          Event.executeCalled data :: [Event.nextErr e]
      | Except.ok result =>
        match sendResponse ep.responseType result req with
        | Except.error e =>
          Event.headersCalled data :: setHeadersEvents rh.status rh.headers ++
            Event.executeCalled data :: [Event.nextErr e]
        | Except.ok evs =>
          Event.headersCalled data :: setHeadersEvents rh.status rh.headers ++
            Event.executeCalled data :: evs

/-- Dispatching one matched request through the registered route: the
validation chains run first and only record errors (carried on the
request), then runAuthIfNeeded, then the shared middleware snapshot, then
process; each stage runs only if the previous one called next(). -/
def dispatch (route : Route) (reg : Registry) (req : Request) : List Event :=
  let a := runAuthIfNeeded route.endpoint.authRequired reg.authMiddleware
  if a.2 then
    let m := runMiddlewares route.middlewaresSnapshot
    if m.2 then a.1 ++ m.1 ++ process route.endpoint req
    else a.1 ++ m.1
  else a.1

/-! Event classification predicates used to state the claims. -/

/-- The event is an invocation of the auth middleware. -/
def isAuthInvoked : Event → Bool
  | Event.authInvoked _ => true
  | _ => false

/-- The event is an invocation of a shared middleware. -/
def isMwInvoked : Event → Bool
  | Event.mwInvoked _ => true
  | _ => false

/-- The event is a middleware writing its own response. -/
def isRespondWrite : Event → Bool
  | Event.respondWrite _ => true
  | _ => false

/-- The event is an invocation of the handler execute(). -/
def isExecuteCalled : Event → Bool
  | Event.executeCalled _ => true
  | _ => false

/-- The event is a terminal body write performed by the engine itself. -/
def isBodyWrite : Event → Bool
  | Event.bodyWrite _ => true
  | _ => false

/-- The event is a terminal write on the response channel: a body write by
the engine or a middleware writing its own response. -/
def isWrite : Event → Bool
  | Event.bodyWrite _ => true
  | Event.respondWrite _ => true
  | _ => false

/-- The event is a call to next(err). -/
def isNextErr : Event → Bool
  | Event.nextErr _ => true
  | _ => false

/-- The event is an invocation of the fileSent hook. -/
def isFileSentHook : Event → Bool
  | Event.fileSentHook _ => true
  | _ => false

/-- The event is an exception escaping an asynchronous callback. -/
def isUncaughtThrow : Event → Bool
  | Event.uncaughtThrow _ => true
  | _ => false

/-- How many next(err) calls a trace contains. -/
def countNextErr (t : List Event) : Nat :=
  (t.filter isNextErr).length

/-- How many terminal writes a trace contains. -/
def countWrites (t : List Event) : Nat :=
  (t.filter isWrite).length

/-- How many engine body writes a trace contains. -/
def countBodyWrites (t : List Event) : Nat :=
  (t.filter isBodyWrite).length

/-- No terminal write occurs after a next(err) call in the trace. -/
def afterNextNoWrite : List Event → Bool
  | [] => true
  | e :: rest =>
    if isNextErr e then rest.all (fun x => !(isWrite x))
    else afterNextNoWrite rest

/-! Concrete middleware values, endpoints and requests used to evaluate the
model on closed inputs. -/

/-- A shared middleware that calls next(). -/
def mwA : MiddlewareFunc := { name := "A", action := MwAction.next }

/-- A second shared middleware that calls next(). -/
def mwB : MiddlewareFunc := { name := "B", action := MwAction.next }

/-- A shared middleware registered only after some endpoint registrations. -/
def mwC : MiddlewareFunc := { name := "C", action := MwAction.next }

/-- An auth middleware that lets requests through. -/
def authOk : MiddlewareFunc := { name := "auth", action := MwAction.next }

/-- A replacement auth middleware. -/
def authNew : MiddlewareFunc := { name := "auth2", action := MwAction.next }

/-- A request with no validation errors and a healthy transport. -/
def cleanReq : Request :=
  { body := "b", query := "q", params := "p", headers := "h",
    validationErrors := [], fileSendErr := none, streamRelayErr := none }

/-- A request on which the validation adapter records one field error. -/
def badReq : Request :=
  { cleanReq with validationErrors := [{ field := "name", message := "missing" }] }

/-- A request whose transport fails while sending a file. -/
def fileFailReq : Request := { cleanReq with fileSendErr := some "EPIPE" }

/-- A JSON endpoint whose handler returns a string. -/
def epJson : EndpointModel :=
  { path := "/items", type := EndpointType.GET,
    execute := fun _ => Except.ok (HandlerResult.str "ok") }

/-- A STREAM endpoint whose handler returns a number instead of a stream. -/
def epStream : EndpointModel :=
  { path := "/export", type := EndpointType.GET,
    responseType := ResponseType.STREAM,
    execute := fun _ => Except.ok (HandlerResult.num 42) }

/-- An endpoint declaring an out-of-enum response kind. -/
def epXml : EndpointModel :=
  { path := "/xml", type := EndpointType.GET,
    responseType := ResponseType.other "xml",
    execute := fun _ => Except.ok (HandlerResult.str "<a/>") }

/-- A registry with two shared middlewares and an auth middleware. -/
def regAB : Registry := { middlewares := [mwA, mwB], authMiddleware := some authOk }

/-- The registry obtained by two registerMiddleware calls on an empty
registry, as in the scenario where middleware is registered twice. -/
def regTwice : Registry :=
  registerMiddleware
    (registerMiddleware { middlewares := [], authMiddleware := none } mwA) mwB

/-! Generic trace lemmas. -/

lemma countNextErr_append (a b : List Event) :
    countNextErr (a ++ b) = countNextErr a + countNextErr b := by
  simp [countNextErr, List.filter_append]

lemma countWrites_append (a b : List Event) :
    countWrites (a ++ b) = countWrites a + countWrites b := by
  simp [countWrites, List.filter_append]

lemma countBodyWrites_append (a b : List Event) :
    countBodyWrites (a ++ b) = countBodyWrites a + countBodyWrites b := by
  simp [countBodyWrites, List.filter_append]

lemma countNextErr_cons_zero {e : Event} {t : List Event}
    (h : countNextErr (e :: t) = 0) : isNextErr e = false ∧ countNextErr t = 0 := by
  by_cases he : isNextErr e
  · simp [countNextErr, List.filter, he] at h
  · constructor
    · simp [he]
    · simpa [countNextErr, List.filter, he] using h

lemma afterNextNoWrite_of_no_next {t : List Event}
    (h : countNextErr t = 0) : afterNextNoWrite t = true := by
  induction t with
  | nil => rfl
  | cons e rest ih =>
    obtain ⟨he, ht⟩ := countNextErr_cons_zero h
    simp [afterNextNoWrite, he, ih ht]

lemma afterNextNoWrite_append {a b : List Event}
    (ha : countNextErr a = 0) (hb : afterNextNoWrite b = true) :
    afterNextNoWrite (a ++ b) = true := by
  induction a with
  | nil => simpa using hb
  | cons e rest ih =>
    obtain ⟨he, ht⟩ := countNextErr_cons_zero ha
    simp [afterNextNoWrite, he, ih ht]

/-! Stage lemmas: what events each pipeline stage can emit. -/

lemma invokeMw_mem {inv : Event} {mw : MiddlewareFunc} {e : Event}
    (h : e ∈ (invokeMw inv mw).1) :
    e = inv ∨ (∃ err, e = Event.nextErr err) ∨ e = Event.respondWrite mw.name := by
  cases hact : mw.action <;> simp [invokeMw, hact] at h <;> tauto

lemma invokeMw_counts {inv : Event} {mw : MiddlewareFunc}
    (h1 : isNextErr inv = false) (h2 : isWrite inv = false) :
    countNextErr (invokeMw inv mw).1 + countWrites (invokeMw inv mw).1 ≤ 1 ∧
    ((invokeMw inv mw).2 = true →
      countNextErr (invokeMw inv mw).1 = 0 ∧ countWrites (invokeMw inv mw).1 = 0) ∧
    afterNextNoWrite (invokeMw inv mw).1 = true := by
  cases inv <;> cases hact : mw.action <;>
    simp_all [invokeMw, countNextErr, countWrites, List.filter,
      afterNextNoWrite, isNextErr, isWrite]

lemma runAuthIfNeeded_mem {ar : Bool} {amw : Option MiddlewareFunc} {e : Event}
    (h : e ∈ (runAuthIfNeeded ar amw).1) :
    (∃ n, e = Event.authInvoked n) ∨ (∃ err, e = Event.nextErr err) ∨
    (∃ n, e = Event.respondWrite n) := by
  cases ar with
  | false => simp [runAuthIfNeeded] at h
  | true =>
    cases amw with
    | none => simp [runAuthIfNeeded] at h
    | some mw =>
      rcases invokeMw_mem h with
        h1 | h1 | h1 <;> [exact Or.inl ⟨mw.name, h1⟩; exact Or.inr (Or.inl h1);
          exact Or.inr (Or.inr ⟨mw.name, h1⟩)]

lemma runAuthIfNeeded_counts (ar : Bool) (amw : Option MiddlewareFunc) :
    countNextErr (runAuthIfNeeded ar amw).1 + countWrites (runAuthIfNeeded ar amw).1 ≤ 1 ∧
    ((runAuthIfNeeded ar amw).2 = true →
      countNextErr (runAuthIfNeeded ar amw).1 = 0 ∧
      countWrites (runAuthIfNeeded ar amw).1 = 0) ∧
    afterNextNoWrite (runAuthIfNeeded ar amw).1 = true := by
  cases ar with
  | false => simp [runAuthIfNeeded, countNextErr, countWrites, afterNextNoWrite]
  | true =>
    cases amw with
    | none => simp [runAuthIfNeeded, countNextErr, countWrites, afterNextNoWrite]
    | some mw =>
      simpa [runAuthIfNeeded] using
        @invokeMw_counts (Event.authInvoked mw.name) mw rfl rfl

lemma runMiddlewares_mem {ms : List MiddlewareFunc} {e : Event}
    (h : e ∈ (runMiddlewares ms).1) :
    (∃ mw ∈ ms, e = Event.mwInvoked mw.name ∨ e = Event.respondWrite mw.name) ∨
    (∃ err, e = Event.nextErr err) := by
  induction ms with
  | nil => simp [runMiddlewares] at h
  | cons mw rest ih =>
    cases hact : mw.action with
    | next =>
      simp [runMiddlewares, invokeMw, hact] at h
      rcases h with h | h
      · exact Or.inl ⟨mw, by simp, Or.inl h⟩
      · rcases ih h with ⟨mw2, hmw2, h2⟩ | h2
        · exact Or.inl ⟨mw2, by simp [hmw2], h2⟩
        · exact Or.inr h2
    | nextErr err =>
      simp [runMiddlewares, invokeMw, hact] at h
      rcases h with h | h
      · exact Or.inl ⟨mw, by simp, Or.inl h⟩
      · exact Or.inr ⟨err, h⟩
    | respond =>
      simp [runMiddlewares, invokeMw, hact] at h
      rcases h with h | h
      · exact Or.inl ⟨mw, by simp, Or.inl h⟩
      · exact Or.inl ⟨mw, by simp, Or.inr h⟩

lemma runMiddlewares_counts (ms : List MiddlewareFunc) :
    countNextErr (runMiddlewares ms).1 + countWrites (runMiddlewares ms).1 ≤ 1 ∧
    ((runMiddlewares ms).2 = true →
      countNextErr (runMiddlewares ms).1 = 0 ∧
      countWrites (runMiddlewares ms).1 = 0) ∧
    afterNextNoWrite (runMiddlewares ms).1 = true := by
  induction ms with
  | nil => simp [runMiddlewares, countNextErr, countWrites, afterNextNoWrite]
  | cons mw rest ih =>
    obtain ⟨ih1, ih2, ih3⟩ := ih
    cases hact : mw.action with
    | next =>
      simp only [runMiddlewares, invokeMw, hact]
      refine ⟨?_, ?_, ?_⟩
      · simpa [countNextErr_append, countNextErr, countWrites_append, countWrites,
          List.filter, isNextErr, isWrite] using ih1
      · intro hc
        have := ih2 (by simpa using hc)
        simpa [countNextErr_append, countNextErr, countWrites_append, countWrites,
          List.filter, isNextErr, isWrite] using this
      · exact afterNextNoWrite_append
          (by simp [countNextErr, List.filter, isNextErr])
          (by simpa using ih3)
    | nextErr err =>
      simp [runMiddlewares, invokeMw, hact, countNextErr, countWrites,
        List.filter, isNextErr, isWrite, afterNextNoWrite]
    | respond =>
      simp [runMiddlewares, invokeMw, hact, countNextErr, countWrites,
        List.filter, isNextErr, isWrite, afterNextNoWrite]

/-- When every shared middleware calls next(), the chain invokes each one
in list order and continues. -/
lemma runMiddlewares_all_next {ms : List MiddlewareFunc}
    (h : ∀ mw ∈ ms, mw.action = MwAction.next) :
    runMiddlewares ms = (ms.map (fun mw => Event.mwInvoked mw.name), true) := by
  induction ms with
  | nil => rfl
  | cons mw rest ih =>
    have hmw : mw.action = MwAction.next := h mw (by simp)
    have hrest := ih (fun m hm => h m (by simp [hm]))
    simp [runMiddlewares, invokeMw, hmw, hrest]

lemma setHeadersEvents_mem {s : Nat} {hs : List (String × String)} {e : Event}
    (h : e ∈ setHeadersEvents s hs) :
    e = Event.statusSet s ∨ ∃ k v, e = Event.headerSet k v := by
  simp [setHeadersEvents] at h
  rcases h with rfl | ⟨k, v, _, rfl⟩
  · exact Or.inl rfl
  · exact Or.inr ⟨k, v, rfl⟩

lemma setHeadersEvents_filter_nextErr (s : Nat) (hs : List (String × String)) :
    (setHeadersEvents s hs).filter isNextErr = [] := by
  refine List.filter_eq_nil_iff.mpr (fun e he => ?_)
  rcases setHeadersEvents_mem he with rfl | ⟨k, v, rfl⟩ <;> simp [isNextErr]

lemma setHeadersEvents_filter_write (s : Nat) (hs : List (String × String)) :
    (setHeadersEvents s hs).filter isWrite = [] := by
  refine List.filter_eq_nil_iff.mpr (fun e he => ?_)
  rcases setHeadersEvents_mem he with rfl | ⟨k, v, rfl⟩ <;> simp [isWrite]

lemma setHeadersEvents_filter_bodyWrite (s : Nat) (hs : List (String × String)) :
    (setHeadersEvents s hs).filter isBodyWrite = [] := by
  refine List.filter_eq_nil_iff.mpr (fun e he => ?_)
  rcases setHeadersEvents_mem he with rfl | ⟨k, v, rfl⟩ <;> simp [isBodyWrite]

/-- A successful dispatch writes the body exactly once, calls next(err)
never, and emits only dispatcher events (body writes, logging, the fileSent
hook, an uncaught callback throw). -/
lemma sendResponse_ok_spec {rt : ResponseType} {d : HandlerResult} {req : Request}
    {evs : List Event} (h : sendResponse rt d req = Except.ok evs) :
    evs.filter isNextErr = [] ∧ countWrites evs = 1 ∧ countBodyWrites evs = 1 ∧
    (∀ e ∈ evs, isAuthInvoked e = false ∧ isMwInvoked e = false ∧
      isRespondWrite e = false ∧ isExecuteCalled e = false) := by
  cases rt with
  | JSON =>
    simp [sendResponse] at h
    subst h
    refine ⟨by simp [isNextErr], by simp [countWrites, isWrite], by simp [countBodyWrites, isBodyWrite], ?_⟩
    intro e he
    simp at he
    subst he
    simp [isAuthInvoked, isMwInvoked, isRespondWrite, isExecuteCalled]
  | FILE =>
    cases d with
    | str s =>
      cases hfe : req.fileSendErr with
      | none =>
        simp [sendResponse, hfe] at h
        subst h
        refine ⟨by simp [isNextErr], by simp [countWrites, isWrite], by simp [countBodyWrites, isBodyWrite], ?_⟩
        intro e he
        simp at he
        rcases he with rfl | rfl <;>
          simp [isAuthInvoked, isMwInvoked, isRespondWrite, isExecuteCalled]
      | some msg =>
        simp [sendResponse, hfe] at h
        subst h
        refine ⟨by simp [isNextErr], by simp [countWrites, isWrite], by simp [countBodyWrites, isBodyWrite], ?_⟩
        intro e he
        simp at he
        rcases he with rfl | rfl | rfl <;>
          simp [isAuthInvoked, isMwInvoked, isRespondWrite, isExecuteCalled]
    | readableStream => simp [sendResponse] at h
    | num n => simp [sendResponse] at h
  | STREAM =>
    cases d with
    | readableStream =>
      cases hse : req.streamRelayErr with
      | none =>
        simp [sendResponse, isReadableStream, hse] at h
        subst h
        refine ⟨by simp [isNextErr], by simp [countWrites, isWrite], by simp [countBodyWrites, isBodyWrite], ?_⟩
        intro e he
        simp at he
        subst he
        simp [isAuthInvoked, isMwInvoked, isRespondWrite, isExecuteCalled]
      | some msg =>
        simp [sendResponse, isReadableStream, hse] at h
        subst h
        refine ⟨by simp [isNextErr], by simp [countWrites, isWrite], by simp [countBodyWrites, isBodyWrite], ?_⟩
        intro e he
        simp at he
        rcases he with rfl | rfl | rfl | rfl <;>
          simp [isAuthInvoked, isMwInvoked, isRespondWrite, isExecuteCalled]
    | str s => simp [sendResponse, isReadableStream] at h
    | num n => simp [sendResponse, isReadableStream] at h
  | other s => simp [sendResponse] at h

/-! Branch equations for process. -/

lemma process_invalid {ep : EndpointModel} {req : Request}
    (h : (getValidationErrors req).length > 0) :
    process ep req =
      [Event.nextErr (Err.http (BadRequestException (getValidationErrors req)))] := by
  simp [process, h]

lemma process_headersErr {ep : EndpointModel} {req : Request} {e : Err}
    (hv : req.validationErrors = [])
    (hh : ep.headersHook (mkRequestData req) = Except.error e) :
    process ep req = [Event.headersCalled (mkRequestData req), Event.nextErr e] := by
  simp [process, getValidationErrors, hv, hh]

lemma process_execErr {ep : EndpointModel} {req : Request} {rh : ResponseHeaders} {e : Err}
    (hv : req.validationErrors = [])
    (hh : ep.headersHook (mkRequestData req) = Except.ok rh)
    (hx : ep.execute (mkRequestData req) = Except.error e) :
    process ep req =
      Event.headersCalled (mkRequestData req) ::
        setHeadersEvents rh.status rh.headers ++
        [Event.executeCalled (mkRequestData req), Event.nextErr e] := by
  simp [process, getValidationErrors, hv, hh, hx]

lemma process_sendErr {ep : EndpointModel} {req : Request} {rh : ResponseHeaders}
    {result : HandlerResult} {e : Err}
    (hv : req.validationErrors = [])
    (hh : ep.headersHook (mkRequestData req) = Except.ok rh)
    (hx : ep.execute (mkRequestData req) = Except.ok result)
    (hs : sendResponse ep.responseType result req = Except.error e) :
    process ep req =
      Event.headersCalled (mkRequestData req) ::
        setHeadersEvents rh.status rh.headers ++
        [Event.executeCalled (mkRequestData req), Event.nextErr e] := by
  simp [process, getValidationErrors, hv, hh, hx, hs]

lemma process_sendOk {ep : EndpointModel} {req : Request} {rh : ResponseHeaders}
    {result : HandlerResult} {evs : List Event}
    (hv : req.validationErrors = [])
    (hh : ep.headersHook (mkRequestData req) = Except.ok rh)
    (hx : ep.execute (mkRequestData req) = Except.ok result)
    (hs : sendResponse ep.responseType result req = Except.ok evs) :
    process ep req =
      Event.headersCalled (mkRequestData req) ::
        setHeadersEvents rh.status rh.headers ++
        Event.executeCalled (mkRequestData req) :: evs := by
  simp [process, getValidationErrors, hv, hh, hx, hs]

/-! Count computations on the branch shapes. -/

lemma errShape_filter_nextErr (d : RequestData) (rh : ResponseHeaders) (e : Err) :
    (Event.headersCalled d :: setHeadersEvents rh.status rh.headers ++
      [Event.executeCalled d, Event.nextErr e]).filter isNextErr = [Event.nextErr e] := by
  simp [List.filter_append, setHeadersEvents_filter_nextErr, isNextErr]

lemma errShape_filter_write (d : RequestData) (rh : ResponseHeaders) (e : Err) :
    (Event.headersCalled d :: setHeadersEvents rh.status rh.headers ++
      [Event.executeCalled d, Event.nextErr e]).filter isWrite = [] := by
  simp [List.filter_append, setHeadersEvents_filter_write, isWrite]

lemma okShape_filter_nextErr (d : RequestData) (rh : ResponseHeaders) (evs : List Event)
    (h : evs.filter isNextErr = []) :
    (Event.headersCalled d :: setHeadersEvents rh.status rh.headers ++
      Event.executeCalled d :: evs).filter isNextErr = [] := by
  simp [List.filter_append, setHeadersEvents_filter_nextErr, isNextErr, h]

lemma okShape_filter_write (d : RequestData) (rh : ResponseHeaders) (evs : List Event) :
    (Event.headersCalled d :: setHeadersEvents rh.status rh.headers ++
      Event.executeCalled d :: evs).filter isWrite = evs.filter isWrite := by
  simp [List.filter_append, setHeadersEvents_filter_write, isWrite]

/-- The process stage calls next(err) at most once, writes the body at most
once, and never writes after a next(err). -/
lemma process_counts (ep : EndpointModel) (req : Request) :
    countNextErr (process ep req) ≤ 1 ∧ countWrites (process ep req) ≤ 1 ∧
    afterNextNoWrite (process ep req) = true := by
  by_cases hv : (getValidationErrors req).length > 0
  · rw [process_invalid hv]
    simp [countNextErr, countWrites, List.filter, isNextErr, isWrite, afterNextNoWrite]
  · have hv' : req.validationErrors = [] := by
      have := List.eq_nil_of_length_eq_zero (Nat.eq_zero_of_not_pos hv)
      simpa [getValidationErrors] using this
    cases hh : ep.headersHook (mkRequestData req) with
    | error e =>
      rw [process_headersErr hv' hh]
      simp [countNextErr, countWrites, List.filter, isNextErr, isWrite, afterNextNoWrite]
    | ok rh =>
      cases hx : ep.execute (mkRequestData req) with
      | error e =>
        rw [process_execErr hv' hh hx]
        refine ⟨?_, ?_, ?_⟩
        · rw [countNextErr, errShape_filter_nextErr]
          simp
        · rw [countWrites, errShape_filter_write]
          simp
        · refine @afterNextNoWrite_append
            (Event.headersCalled (mkRequestData req) ::
              setHeadersEvents rh.status rh.headers)
            [Event.executeCalled (mkRequestData req), Event.nextErr e] ?_ ?_
          · simp [countNextErr, setHeadersEvents_filter_nextErr, isNextErr]
          · simp [afterNextNoWrite, isNextErr, isWrite]
      | ok result =>
        cases hs : sendResponse ep.responseType result req with
        | error e =>
          rw [process_sendErr hv' hh hx hs]
          refine ⟨?_, ?_, ?_⟩
          · rw [countNextErr, errShape_filter_nextErr]
            simp
          · rw [countWrites, errShape_filter_write]
            simp
          · refine @afterNextNoWrite_append
              (Event.headersCalled (mkRequestData req) ::
                setHeadersEvents rh.status rh.headers)
              [Event.executeCalled (mkRequestData req), Event.nextErr e] ?_ ?_
            · simp [countNextErr, setHeadersEvents_filter_nextErr, isNextErr]
            · simp [afterNextNoWrite, isNextErr, isWrite]
        | ok evs =>
          obtain ⟨hno, hw, _, _⟩ := sendResponse_ok_spec hs
          rw [process_sendOk hv' hh hx hs]
          refine ⟨?_, ?_, ?_⟩
          · rw [countNextErr, okShape_filter_nextErr _ _ _ hno]
            simp
          · rw [countWrites, okShape_filter_write]
            exact le_of_eq hw
          · exact afterNextNoWrite_of_no_next
              (by rw [countNextErr, okShape_filter_nextErr _ _ _ hno]; rfl)

/-- The process stage never emits auth-gate or shared-middleware events. -/
lemma process_mem {ep : EndpointModel} {req : Request} {e : Event}
    (h : e ∈ process ep req) :
    isAuthInvoked e = false ∧ isMwInvoked e = false ∧ isRespondWrite e = false := by
  by_cases hv : (getValidationErrors req).length > 0
  · rw [process_invalid hv] at h
    simp at h
    subst h
    simp [isAuthInvoked, isMwInvoked, isRespondWrite]
  · have hv' : req.validationErrors = [] := by
      have := List.eq_nil_of_length_eq_zero (Nat.eq_zero_of_not_pos hv)
      simpa [getValidationErrors] using this
    cases hh : ep.headersHook (mkRequestData req) with
    | error err =>
      rw [process_headersErr hv' hh] at h
      simp at h
      rcases h with rfl | rfl <;> simp [isAuthInvoked, isMwInvoked, isRespondWrite]
    | ok rh =>
      cases hx : ep.execute (mkRequestData req) with
      | error err =>
        rw [process_execErr hv' hh hx] at h
        simp at h
        rcases h with rfl | h | rfl | rfl
        · simp [isAuthInvoked, isMwInvoked, isRespondWrite]
        · rcases setHeadersEvents_mem h with rfl | ⟨k, v, rfl⟩ <;>
            simp [isAuthInvoked, isMwInvoked, isRespondWrite]
        · simp [isAuthInvoked, isMwInvoked, isRespondWrite]
        · simp [isAuthInvoked, isMwInvoked, isRespondWrite]
      | ok result =>
        cases hs : sendResponse ep.responseType result req with
        | error err =>
          rw [process_sendErr hv' hh hx hs] at h
          simp at h
          rcases h with rfl | h | rfl | rfl
          · simp [isAuthInvoked, isMwInvoked, isRespondWrite]
          · rcases setHeadersEvents_mem h with rfl | ⟨k, v, rfl⟩ <;>
              simp [isAuthInvoked, isMwInvoked, isRespondWrite]
          · simp [isAuthInvoked, isMwInvoked, isRespondWrite]
          · simp [isAuthInvoked, isMwInvoked, isRespondWrite]
        | ok evs =>
          obtain ⟨_, _, _, hmem⟩ := sendResponse_ok_spec hs
          rw [process_sendOk hv' hh hx hs] at h
          simp at h
          rcases h with rfl | h | rfl | h
          · simp [isAuthInvoked, isMwInvoked, isRespondWrite]
          · rcases setHeadersEvents_mem h with rfl | ⟨k, v, rfl⟩ <;>
              simp [isAuthInvoked, isMwInvoked, isRespondWrite]
          · simp [isAuthInvoked, isMwInvoked, isRespondWrite]
          · obtain ⟨h1, h2, h3, _⟩ := hmem e h
            exact ⟨h1, h2, h3⟩

/-! Dispatch-level lemmas. -/

lemma dispatch_mem {route : Route} {reg : Registry} {req : Request} {e : Event}
    (h : e ∈ dispatch route reg req) :
    e ∈ (runAuthIfNeeded route.endpoint.authRequired reg.authMiddleware).1 ∨
    e ∈ (runMiddlewares route.middlewaresSnapshot).1 ∨
    e ∈ process route.endpoint req := by
  unfold dispatch at h
  by_cases ha : (runAuthIfNeeded route.endpoint.authRequired reg.authMiddleware).2 = true
  · by_cases hm : (runMiddlewares route.middlewaresSnapshot).2 = true
    · simp only [ha, hm, if_true] at h
      simp only [List.mem_append] at h
      tauto
    · simp only [ha, if_true, hm, if_false, Bool.not_eq_true] at h
      rw [if_neg (by simp [Bool.not_eq_true] at hm; simp [hm])] at h
      simp only [List.mem_append] at h
      tauto
  · rw [if_neg (by simp [Bool.not_eq_true] at ha; simp [ha])] at h
    tauto

lemma dispatch_counts (route : Route) (reg : Registry) (req : Request) :
    countNextErr (dispatch route reg req) ≤ 1 ∧
    countWrites (dispatch route reg req) ≤ 1 ∧
    afterNextNoWrite (dispatch route reg req) = true := by
  obtain ⟨a1, a2, a3⟩ := runAuthIfNeeded_counts route.endpoint.authRequired reg.authMiddleware
  obtain ⟨m1, m2, m3⟩ := runMiddlewares_counts route.middlewaresSnapshot
  obtain ⟨p1, p2, p3⟩ := process_counts route.endpoint req
  unfold dispatch
  by_cases ha : (runAuthIfNeeded route.endpoint.authRequired reg.authMiddleware).2 = true
  · obtain ⟨an, aw⟩ := a2 ha
    by_cases hm : (runMiddlewares route.middlewaresSnapshot).2 = true
    · obtain ⟨mn, mw0⟩ := m2 hm
      simp only [ha, hm, if_true]
      refine ⟨?_, ?_, ?_⟩
      · rw [countNextErr_append, countNextErr_append, an, mn]
        simpa using p1
      · rw [countWrites_append, countWrites_append, aw, mw0]
        simpa using p2
      · exact afterNextNoWrite_append
          (by rw [countNextErr_append, an, mn])
          p3
    · simp only [ha, if_true]
      rw [if_neg (by simp [Bool.not_eq_true] at hm; simp [hm])]
      refine ⟨?_, ?_, ?_⟩
      · rw [countNextErr_append, an]
        omega
      · rw [countWrites_append, aw]
        omega
      · exact afterNextNoWrite_append (by rw [an]) m3
  · rw [if_neg (by simp [Bool.not_eq_true] at ha; simp [ha])]
    exact ⟨by omega, by omega, a3⟩

/-- The auth stage invokes a middleware exactly when the flag is set and a
middleware is registered. -/
lemma runAuthIfNeeded_any (ar : Bool) (amw : Option MiddlewareFunc) :
    (runAuthIfNeeded ar amw).1.any isAuthInvoked = (ar && amw.isSome) := by
  cases ar with
  | false => simp [runAuthIfNeeded]
  | true =>
    cases amw with
    | none => simp [runAuthIfNeeded]
    | some mw =>
      cases hact : mw.action <;>
        simp [runAuthIfNeeded, invokeMw, hact, isAuthInvoked]

lemma runMiddlewares_any_auth (ms : List MiddlewareFunc) :
    (runMiddlewares ms).1.any isAuthInvoked = false := by
  rw [List.any_eq_false]
  intro e he
  rcases runMiddlewares_mem he with ⟨mw, _, rfl | rfl⟩ | ⟨err, rfl⟩ <;>
    simp [isAuthInvoked]

lemma process_any_auth (ep : EndpointModel) (req : Request) :
    (process ep req).any isAuthInvoked = false := by
  rw [List.any_eq_false]
  intro e he
  simp [(process_mem he).1]

/-! The claims. -/

/-- Claim C4: every ValidationException (BadRequestException) built from a
validation-adapter error list has status exactly 400 and info equal to the
complete ordered list of field errors the adapter produced. -/
theorem claim4_validation_exception (errs : List FieldError) :
    (BadRequestException errs).status = 400 ∧
    (BadRequestException errs).message = "Bad request" ∧
    (BadRequestException errs).info = some errs :=
  ⟨rfl, rfl, rfl⟩

/-- Claim C3: the auth gate middleware is invoked if and only if the
endpoint has authRequired = true and an auth middleware is registered; in
every other case runAuthIfNeeded just calls next() and the pipeline
proceeds. -/
theorem claim3_auth_gate_iff (route : Route) (reg : Registry) (req : Request) :
    ((dispatch route reg req).any isAuthInvoked =
      (route.endpoint.authRequired && reg.authMiddleware.isSome)) ∧
    (route.endpoint.authRequired = false ∨ reg.authMiddleware = none →
      runAuthIfNeeded route.endpoint.authRequired reg.authMiddleware = ([], true)) := by
  constructor
  · unfold dispatch
    by_cases ha : (runAuthIfNeeded route.endpoint.authRequired reg.authMiddleware).2 = true
    · by_cases hm : (runMiddlewares route.middlewaresSnapshot).2 = true
      · simp only [ha, hm, if_true]
        simp [List.any_append, runAuthIfNeeded_any, runMiddlewares_any_auth,
          process_any_auth]
      · simp only [ha, if_true]
        rw [if_neg (by simp [Bool.not_eq_true] at hm; simp [hm])]
        simp [List.any_append, runAuthIfNeeded_any, runMiddlewares_any_auth]
    · rw [if_neg (by simp [Bool.not_eq_true] at ha; simp [ha])]
      exact runAuthIfNeeded_any route.endpoint.authRequired reg.authMiddleware
  · intro h
    rcases h with h | h
    · simp [runAuthIfNeeded, h]
    · cases har : route.endpoint.authRequired <;> simp [runAuthIfNeeded, h]

/-- Witness for claim C3 at a concrete endpoint with authRequired = true, a
registered auth middleware, and a request with no validation errors. -/
theorem claim3_auth_gate_iff_witness :
    ((dispatch (setupEndpoint epJson regAB) regAB cleanReq).any isAuthInvoked =
      ((setupEndpoint epJson regAB).endpoint.authRequired &&
        regAB.authMiddleware.isSome)) ∧
    runAuthIfNeeded (setupEndpoint epJson regAB).endpoint.authRequired none =
      ([], true) := by
  refine ⟨(claim3_auth_gate_iff (setupEndpoint epJson regAB) regAB cleanReq).1, ?_⟩
  exact (claim3_auth_gate_iff (setupEndpoint epJson regAB)
    { regAB with authMiddleware := none } cleanReq).2 (Or.inr rfl)

/-- Claim C1, counterexample: on a request with one validation error, an
endpoint with a registered auth middleware and a shared middleware, the
auth gate and the shared middleware are both invoked, contradicting the
claim that neither runs for such a request.  The validation check happens
only in the final process handler of the chain. -/
theorem claim1_counterexample :
    badReq.validationErrors.length > 0 ∧
    Event.authInvoked "auth" ∈ dispatch (setupEndpoint epJson regAB) regAB badReq ∧
    Event.mwInvoked "A" ∈ dispatch (setupEndpoint epJson regAB) regAB badReq := by
  refine ⟨by decide, ?_, ?_⟩ <;>
    simp [dispatch, setupEndpoint, runAuthIfNeeded, invokeMw, runMiddlewares,
      process, getValidationErrors, regAB, epJson, badReq, cleanReq, authOk,
      mwA, mwB]

/-- Claim C1 (amended): for every request on which the validation adapter
reports one or more field errors, the process stage forwards a single
BadRequestException with status 400 carrying the full error list, and the
handler (execute) never runs; however the auth gate and the shared
middleware do run before the validation check, because the check happens
only in the final process handler of the registered chain. -/
theorem claim1_amended (route : Route) (reg : Registry) (req : Request)
    (h : req.validationErrors.length > 0) :
    process route.endpoint req =
      [Event.nextErr (Err.http (BadRequestException req.validationErrors))] ∧
    (BadRequestException req.validationErrors).status = 400 ∧
    (BadRequestException req.validationErrors).info = some req.validationErrors ∧
    (∀ e ∈ dispatch route reg req, isExecuteCalled e = false) := by
  have hp : process route.endpoint req =
      [Event.nextErr (Err.http (BadRequestException req.validationErrors))] :=
    process_invalid (by simpa [getValidationErrors] using h)
  refine ⟨hp, rfl, rfl, ?_⟩
  intro e he
  rcases dispatch_mem he with h1 | h1 | h1
  · rcases runAuthIfNeeded_mem h1 with ⟨n, rfl⟩ | ⟨err, rfl⟩ | ⟨n, rfl⟩ <;>
      simp [isExecuteCalled]
  · rcases runMiddlewares_mem h1 with ⟨mw, _, rfl | rfl⟩ | ⟨err, rfl⟩ <;>
      simp [isExecuteCalled]
  · rw [hp] at h1
    simp at h1
    subst h1
    simp [isExecuteCalled]

/-- Witness for the amended claim C1 at a concrete invalid request. -/
theorem claim1_amended_witness :
    process (setupEndpoint epJson regAB).endpoint badReq =
      [Event.nextErr (Err.http (BadRequestException badReq.validationErrors))] ∧
    (BadRequestException badReq.validationErrors).status = 400 ∧
    (BadRequestException badReq.validationErrors).info = some badReq.validationErrors ∧
    (∀ e ∈ dispatch (setupEndpoint epJson regAB) regAB badReq,
      isExecuteCalled e = false) :=
  claim1_amended (setupEndpoint epJson regAB) regAB badReq (by decide)

/-- Claim C2: for every request that passes validation, the header hook is
invoked with the RequestData as the first step of the process stage; when
it returns an envelope, its status and headers are applied strictly before
execute is invoked and before any body write; execute receives the same
RequestData value. -/
theorem claim2_headers_before_handler (ep : EndpointModel) (req : Request)
    (rh : ResponseHeaders)
    (hv : req.validationErrors = [])
    (hh : ep.headersHook (mkRequestData req) = Except.ok rh) :
    (process ep req).head? = some (Event.headersCalled (mkRequestData req)) ∧
    (∃ tail, process ep req =
      Event.headersCalled (mkRequestData req) ::
        setHeadersEvents rh.status rh.headers ++
        Event.executeCalled (mkRequestData req) :: tail) ∧
    (∀ e ∈ Event.headersCalled (mkRequestData req) ::
        setHeadersEvents rh.status rh.headers,
      isBodyWrite e = false) := by
  have hshape : ∃ tail, process ep req =
      Event.headersCalled (mkRequestData req) ::
        setHeadersEvents rh.status rh.headers ++
        Event.executeCalled (mkRequestData req) :: tail := by
    cases hx : ep.execute (mkRequestData req) with
    | error e =>
      exact ⟨[Event.nextErr e], by simpa using process_execErr hv hh hx⟩
    | ok result =>
      cases hs : sendResponse ep.responseType result req with
      | error e =>
        exact ⟨[Event.nextErr e], by simpa using process_sendErr hv hh hx hs⟩
      | ok evs =>
        exact ⟨evs, process_sendOk hv hh hx hs⟩
  obtain ⟨tail, ht⟩ := hshape
  refine ⟨by rw [ht]; rfl, ⟨tail, ht⟩, ?_⟩
  intro e he
  simp at he
  rcases he with rfl | he
  · simp [isBodyWrite]
  · rcases setHeadersEvents_mem he with rfl | ⟨k, v, rfl⟩ <;> simp [isBodyWrite]

/-- Witness for claim C2 at a concrete valid request on the JSON
endpoint. -/
theorem claim2_headers_before_handler_witness :
    (process epJson cleanReq).head? =
      some (Event.headersCalled (mkRequestData cleanReq)) ∧
    (∃ tail, process epJson cleanReq =
      Event.headersCalled (mkRequestData cleanReq) ::
        setHeadersEvents 200 [] ++
        Event.executeCalled (mkRequestData cleanReq) :: tail) ∧
    (∀ e ∈ Event.headersCalled (mkRequestData cleanReq) ::
        setHeadersEvents 200 [],
      isBodyWrite e = false) :=
  claim2_headers_before_handler epJson cleanReq
    { headers := [], status := 200 } rfl rfl

/-- Claim C5: FILE dispatch requires a string result, raising the
"Expected data to be a string" error otherwise and sending no file; for a
string result the file is sent and the fileSent hook is invoked exactly
once with that same string regardless of transport outcome; a transport
send failure is logged and never re-raised (no next(err), no uncaught
throw). -/
theorem claim5_file_dispatch (d : HandlerResult) (req : Request) :
    (isString d = false →
      sendResponse ResponseType.FILE d req =
        Except.error (Err.plain "Expected data to be a string")) ∧
    (∀ s, ∃ evs,
      sendResponse ResponseType.FILE (HandlerResult.str s) req = Except.ok evs ∧
      Event.bodyWrite (WriteKind.sendFile s) ∈ evs ∧
      evs.filter isFileSentHook = [Event.fileSentHook s] ∧
      (∀ msg, req.fileSendErr = some msg →
        Event.logError ("Error sending file " ++ msg) ∈ evs) ∧
      evs.filter isNextErr = [] ∧
      evs.filter isUncaughtThrow = []) ∧
    (isString d = false → ∀ ep rh, req.validationErrors = [] →
      ep.responseType = ResponseType.FILE →
      ep.headersHook (mkRequestData req) = Except.ok rh →
      ep.execute (mkRequestData req) = Except.ok d →
      countBodyWrites (process ep req) = 0) := by
  have herr : isString d = false →
      sendResponse ResponseType.FILE d req =
        Except.error (Err.plain "Expected data to be a string") := by
    intro h
    cases d with
    | str s => simp [isString] at h
    | readableStream => rfl
    | num n => rfl
  refine ⟨herr, ?_, ?_⟩
  rotate_left
  · intro h ep rh hv hrt hh hx
    rw [process_sendErr hv hh hx (by rw [hrt]; exact herr h)]
    simp [countBodyWrites, List.filter_append, setHeadersEvents_filter_bodyWrite,
      isBodyWrite]
  · intro s
    cases hfe : req.fileSendErr with
    | none =>
      refine ⟨[Event.bodyWrite (WriteKind.sendFile s), Event.fileSentHook s],
        by simp [sendResponse, hfe], by simp, ?_, ?_, ?_, ?_⟩
      · simp [isFileSentHook]
      · intro msg hmsg
        cases hmsg
      · simp [isNextErr]
      · simp [isUncaughtThrow]
    | some msg =>
      refine ⟨[Event.bodyWrite (WriteKind.sendFile s),
        Event.logError ("Error sending file " ++ msg), Event.fileSentHook s],
        by simp [sendResponse, hfe], by simp, ?_, ?_, ?_, ?_⟩
      · simp [isFileSentHook]
      · intro msg2 hmsg
        cases hmsg
        simp
      · simp [isNextErr]
      · simp [isUncaughtThrow]

/-- Witness for claim C5: a number result is rejected; the string result
"/tmp/report.pdf" on a failing transport still triggers the hook exactly
once. -/
theorem claim5_file_dispatch_witness :
    sendResponse ResponseType.FILE (HandlerResult.num 3) fileFailReq =
      Except.error (Err.plain "Expected data to be a string") ∧
    (∃ evs,
      sendResponse ResponseType.FILE (HandlerResult.str "/tmp/report.pdf")
        fileFailReq = Except.ok evs ∧
      Event.bodyWrite (WriteKind.sendFile "/tmp/report.pdf") ∈ evs ∧
      evs.filter isFileSentHook = [Event.fileSentHook "/tmp/report.pdf"] ∧
      evs.filter isNextErr = [] ∧
      evs.filter isUncaughtThrow = []) := by
  refine ⟨(claim5_file_dispatch (HandlerResult.num 3) fileFailReq).1 (by decide), ?_⟩
  obtain ⟨evs, h1, h2, h3, _, h5, h6⟩ :=
    (claim5_file_dispatch (HandlerResult.num 3) fileFailReq).2.1 "/tmp/report.pdf"
  exact ⟨evs, h1, h2, h3, h5, h6⟩

/-- Claim C6: STREAM dispatch with a result that is not a readable stream
raises the "Expected data to be a readable stream" error, and the process
stage performs no body write on such a request. -/
theorem claim6_stream_requires_stream (d : HandlerResult) (req : Request)
    (h : isReadableStream d = false) :
    sendResponse ResponseType.STREAM d req =
      Except.error (Err.plain "Expected data to be a readable stream") ∧
    (∀ ep rh, req.validationErrors = [] →
      ep.responseType = ResponseType.STREAM →
      ep.headersHook (mkRequestData req) = Except.ok rh →
      ep.execute (mkRequestData req) = Except.ok d →
      countBodyWrites (process ep req) = 0) := by
  have herr : sendResponse ResponseType.STREAM d req =
      Except.error (Err.plain "Expected data to be a readable stream") := by
    simp [sendResponse, h]
  refine ⟨herr, ?_⟩
  intro ep rh hv hrt hh hx
  rw [process_sendErr hv hh hx (by rw [hrt]; exact herr)]
  simp [countBodyWrites, List.filter_append, setHeadersEvents_filter_bodyWrite,
    isBodyWrite]

/-- Witness for claim C6: the STREAM endpoint whose handler returns the
number 42. -/
theorem claim6_stream_requires_stream_witness :
    sendResponse ResponseType.STREAM (HandlerResult.num 42) cleanReq =
      Except.error (Err.plain "Expected data to be a readable stream") ∧
    countBodyWrites (process epStream cleanReq) = 0 := by
  have h := claim6_stream_requires_stream (HandlerResult.num 42) cleanReq (by decide)
  exact ⟨h.1, h.2 epStream { headers := [], status := 200 } rfl rfl rfl rfl⟩

/-- Claim C7: a responseKind that is none of JSON, FILE or STREAM is an
out-of-enum value; dispatching it raises the "is not implemented"
configuration error naming the kind, and the process stage writes no
response body for such an endpoint. -/
theorem claim7_unimplemented_kind (rt : ResponseType)
    (h1 : rt ≠ ResponseType.JSON) (h2 : rt ≠ ResponseType.FILE)
    (h3 : rt ≠ ResponseType.STREAM) :
    (∃ s, rt = ResponseType.other s) ∧
    (∀ (d : HandlerResult) (req : Request),
      sendResponse rt d req =
        Except.error (Err.plain (ResponseType.toStr rt ++ " is not implemented"))) ∧
    (∀ ep req rh (d : HandlerResult), ep.responseType = rt →
      req.validationErrors = [] →
      ep.headersHook (mkRequestData req) = Except.ok rh →
      ep.execute (mkRequestData req) = Except.ok d →
      countBodyWrites (process ep req) = 0) := by
  obtain ⟨s, rfl⟩ : ∃ s, rt = ResponseType.other s := by
    cases rt with
    | JSON => exact absurd rfl h1
    | FILE => exact absurd rfl h2
    | STREAM => exact absurd rfl h3
    | other s => exact ⟨s, rfl⟩
  refine ⟨⟨s, rfl⟩, fun d req => rfl, ?_⟩
  intro ep req rh d hrt hv hh hx
  rw [process_sendErr hv hh hx (by rw [hrt]; rfl)]
  simp [countBodyWrites, List.filter_append, setHeadersEvents_filter_bodyWrite,
    isBodyWrite]

/-- Witness for claim C7 at the out-of-enum kind "xml". -/
theorem claim7_unimplemented_kind_witness :
    sendResponse (ResponseType.other "xml") (HandlerResult.str "<a/>") cleanReq =
      Except.error (Err.plain (ResponseType.toStr (ResponseType.other "xml") ++
        " is not implemented")) ∧
    countBodyWrites (process epXml cleanReq) = 0 := by
  have h := claim7_unimplemented_kind (ResponseType.other "xml")
    (by decide) (by decide) (by decide)
  exact ⟨h.2.1 (HandlerResult.str "<a/>") cleanReq,
    h.2.2 epXml cleanReq { headers := [], status := 200 }
      (HandlerResult.str "<a/>") rfl rfl rfl rfl⟩

/-- Claim C8: for every request reaching the middleware stage (the auth
gate called onward) whose shared middlewares all call next(), the route
runs exactly the registered middleware list in registration order - every
entry invoked, none skipped, reordered or deduplicated - after the auth
gate events and before the process stage that contains the handler call. -/
theorem claim8_middleware_order (ep : EndpointModel) (reg : Registry) (req : Request)
    (hmw : ∀ mw ∈ reg.middlewares, mw.action = MwAction.next)
    (hauth : (runAuthIfNeeded ep.authRequired reg.authMiddleware).2 = true) :
    dispatch (setupEndpoint ep reg) reg req =
      (runAuthIfNeeded ep.authRequired reg.authMiddleware).1 ++
      reg.middlewares.map (fun mw => Event.mwInvoked mw.name) ++
      process ep req ∧
    (∀ e ∈ (runAuthIfNeeded ep.authRequired reg.authMiddleware).1 ++
        reg.middlewares.map (fun mw => Event.mwInvoked mw.name),
      isExecuteCalled e = false) := by
  have hrun := runMiddlewares_all_next hmw
  constructor
  · unfold dispatch
    simp only [setupEndpoint, hrun, hauth, if_true]
  · intro e he
    rw [List.mem_append] at he
    rcases he with he | he
    · rcases runAuthIfNeeded_mem he with ⟨n, rfl⟩ | ⟨err, rfl⟩ | ⟨n, rfl⟩ <;>
        simp [isExecuteCalled]
    · rw [List.mem_map] at he
      obtain ⟨mw, _, rfl⟩ := he
      simp [isExecuteCalled]

/-- Witness for claim C8: middleware registered twice via two
registerMiddleware calls runs as [A, B] for the endpoint, before the
process stage. -/
theorem claim8_middleware_order_witness :
    dispatch (setupEndpoint epJson regTwice) regTwice cleanReq =
      (runAuthIfNeeded epJson.authRequired regTwice.authMiddleware).1 ++
      regTwice.middlewares.map (fun mw => Event.mwInvoked mw.name) ++
      process epJson cleanReq ∧
    (∀ e ∈ (runAuthIfNeeded epJson.authRequired regTwice.authMiddleware).1 ++
        regTwice.middlewares.map (fun mw => Event.mwInvoked mw.name),
      isExecuteCalled e = false) :=
  claim8_middleware_order epJson regTwice cleanReq (by decide) rfl

/-- Claim C9: every request produces at most one next(err) forwarding and
at most one terminal write, with no write after a next(err) - including
when a STREAM relay fails mid-transfer; each failure source in the process
stage (validation, header hook, handler, the dispatcher itself) is
forwarded exactly once, a successful dispatch forwards nothing, and a
middleware failure is forwarded once and stops the chain. -/
theorem claim9_single_error_single_write (route : Route) (reg : Registry)
    (req : Request) (ep : EndpointModel) :
    countNextErr (dispatch route reg req) ≤ 1 ∧
    countWrites (dispatch route reg req) ≤ 1 ∧
    afterNextNoWrite (dispatch route reg req) = true ∧
    ((getValidationErrors req).length > 0 →
      (process ep req).filter isNextErr =
        [Event.nextErr (Err.http (BadRequestException (getValidationErrors req)))]) ∧
    (∀ e, req.validationErrors = [] →
      ep.headersHook (mkRequestData req) = Except.error e →
      (process ep req).filter isNextErr = [Event.nextErr e]) ∧
    (∀ rh e, req.validationErrors = [] →
      ep.headersHook (mkRequestData req) = Except.ok rh →
      ep.execute (mkRequestData req) = Except.error e →
      (process ep req).filter isNextErr = [Event.nextErr e]) ∧
    (∀ rh r e, req.validationErrors = [] →
      ep.headersHook (mkRequestData req) = Except.ok rh →
      ep.execute (mkRequestData req) = Except.ok r →
      sendResponse ep.responseType r req = Except.error e →
      (process ep req).filter isNextErr = [Event.nextErr e]) ∧
    (∀ rh r evs, req.validationErrors = [] →
      ep.headersHook (mkRequestData req) = Except.ok rh →
      ep.execute (mkRequestData req) = Except.ok r →
      sendResponse ep.responseType r req = Except.ok evs →
      (process ep req).filter isNextErr = []) ∧
    (∀ (mw : MiddlewareFunc) e, mw.action = MwAction.nextErr e →
      invokeMw (Event.mwInvoked mw.name) mw =
        ([Event.mwInvoked mw.name, Event.nextErr e], false)) := by
  obtain ⟨hc1, hc2, hc3⟩ := dispatch_counts route reg req
  refine ⟨hc1, hc2, hc3, ?_, ?_, ?_, ?_, ?_, ?_⟩
  · intro h
    rw [process_invalid h]
    simp [isNextErr]
  · intro e hv hh
    rw [process_headersErr hv hh]
    simp [isNextErr]
  · intro rh e hv hh hx
    rw [process_execErr hv hh hx, errShape_filter_nextErr]
  · intro rh r e hv hh hx hs
    rw [process_sendErr hv hh hx hs, errShape_filter_nextErr]
  · intro rh r evs hv hh hx hs
    rw [process_sendOk hv hh hx hs,
      okShape_filter_nextErr _ _ _ (sendResponse_ok_spec hs).1]
  · intro mw e h
    simp [invokeMw, h]

/-- Witness for claim C9: single forwarding on the invalid request, counts
on the wired route. -/
theorem claim9_single_error_single_write_witness :
    countNextErr (dispatch (setupEndpoint epJson regAB) regAB badReq) ≤ 1 ∧
    countWrites (dispatch (setupEndpoint epJson regAB) regAB badReq) ≤ 1 ∧
    afterNextNoWrite (dispatch (setupEndpoint epJson regAB) regAB badReq) = true ∧
    (process epJson badReq).filter isNextErr =
      [Event.nextErr (Err.http (BadRequestException (getValidationErrors badReq)))] := by
  have h := claim9_single_error_single_write (setupEndpoint epJson regAB)
    regAB badReq epJson
  exact ⟨h.1, h.2.1, h.2.2.1, h.2.2.2.1 (by decide)⟩

/-- Claim C10: setupEndpoint snapshots the shared middleware list at
registration time, so middleware registered afterwards never runs for that
route, while the auth middleware is read at request time, so one registered
(or replaced, last write wins) after registration does take effect. -/
theorem claim10_snapshot_vs_late_auth (ep : EndpointModel) (reg : Registry)
    (mw amw : MiddlewareFunc) (req : Request) :
    (setupEndpoint ep reg).middlewaresSnapshot = reg.middlewares ∧
    (registerMiddleware reg mw).middlewares = reg.middlewares ++ [mw] ∧
    (mw.name ∉ reg.middlewares.map MiddlewareFunc.name →
      Event.mwInvoked mw.name ∉
        dispatch (setupEndpoint ep reg) (registerMiddleware reg mw) req) ∧
    (registerAuthMiddleware reg amw).authMiddleware = some amw ∧
    (ep.authRequired = true →
      (dispatch (setupEndpoint ep reg) (registerAuthMiddleware reg amw) req).head? =
        some (Event.authInvoked amw.name)) := by
  refine ⟨rfl, rfl, ?_, rfl, ?_⟩
  · intro hfresh hmem
    rcases dispatch_mem hmem with h1 | h1 | h1
    · rcases runAuthIfNeeded_mem h1 with ⟨n, hn⟩ | ⟨err, hn⟩ | ⟨n, hn⟩ <;>
        cases hn
    · rcases runMiddlewares_mem h1 with ⟨mw2, hmw2, hn | hn⟩ | ⟨err, hn⟩
      · have : mw2.name = mw.name := by
          injection hn.symm
        exact hfresh (List.mem_map.mpr ⟨mw2, hmw2, this⟩)
      · cases hn
      · cases hn
    · have := (process_mem h1).2.1
      simp [isMwInvoked] at this
  · intro har
    unfold dispatch
    have haux : runAuthIfNeeded
        (setupEndpoint ep reg).endpoint.authRequired
        (registerAuthMiddleware reg amw).authMiddleware =
        invokeMw (Event.authInvoked amw.name) amw := by
      simp [setupEndpoint, registerAuthMiddleware, runAuthIfNeeded, har]
    rw [haux]
    cases hact : amw.action <;>
      first
      | (simp [invokeMw, hact]; split <;> rfl)
      | simp [invokeMw, hact]

/-- Witness for claim C10: a fresh middleware "C" registered after the
route snapshot never runs, while a replacement auth middleware registered
afterwards is the one invoked first. -/
theorem claim10_snapshot_vs_late_auth_witness :
    (setupEndpoint epJson regAB).middlewaresSnapshot = regAB.middlewares ∧
    Event.mwInvoked mwC.name ∉
      dispatch (setupEndpoint epJson regAB) (registerMiddleware regAB mwC) cleanReq ∧
    (dispatch (setupEndpoint epJson regAB)
        (registerAuthMiddleware regAB authNew) cleanReq).head? =
      some (Event.authInvoked authNew.name) := by
  have h := claim10_snapshot_vs_late_auth epJson regAB mwC authNew cleanReq
  exact ⟨h.1, h.2.2.1 (by decide), h.2.2.2.2 rfl⟩

end EasyExpress
